import Mathlib

/-!
Shallow embedding of the persistence and domain-model layer of the
visual-scheduling repository (src/models.py and src/data_manager.py).

Python-specific conventions used throughout:
* `datetime.now().isoformat()` is modelled by an explicit `now : String`
  parameter threaded to every operation that reads the clock.
* A Python `dict` produced by `to_dict` / consumed by `from_dict` is modelled
  by a record whose fields are `Option`-valued: `none` means the key is absent.
* Code that can raise an exception is modelled with `Option`: `none` is the
  raised exception (which callers in data_manager.py catch and turn into
  `None` / `False`).
* `str.lower()` is modelled by `String.toLower` (identical on the ASCII day
  names this program manipulates).
-/

namespace VisualScheduling

/-- Python `str.lower()` (character-wise lowercasing; on the ASCII strings
this program manipulates it agrees with `Char.toLower` applied pointwise). -/
def pyLower (s : String) : String := String.mk (s.data.map Char.toLower)

/-- models.py `TimeSlot`: a start and end time as "HH:MM" strings. -/
structure TimeSlot where
  start_time : String
  end_time : String
deriving DecidableEq, Repr

/-- models.py `TimeSlot.__str__`: `f"{self.start_time} - {self.end_time}"`. -/
def TimeSlot.str (ts : TimeSlot) : String :=
  ts.start_time ++ " - " ++ ts.end_time

/-- models.py `Subject`. -/
structure Subject where
  name : String
  code : String
  credits : Int := 3
  instructor : String := ""
  color : String := "#3b82f6"
deriving DecidableEq, Repr

/-- models.py `ClassSession`. -/
structure ClassSession where
  subject : Subject
  day : String
  time_slot : TimeSlot
  room : String := ""
  session_type : String := "Lecture"
  notes : String := ""
deriving DecidableEq, Repr

/-- models.py `Timetable` (the raw record; construction through the dataclass
constructor, which runs `__post_init__`, is `mkTimetable` below). -/
structure Timetable where
  name : String
  semester : String
  sessions : List ClassSession
  created_date : String
  last_modified : String
deriving DecidableEq, Repr

/-- Dataclass construction of a `Timetable`, including `__post_init__`:
`created_date` is replaced by the current time when it is falsy (empty), and
`last_modified` is unconditionally set to the current time, discarding the
value passed to the constructor. -/
def mkTimetable (name semester : String) (sessions : List ClassSession)
    (created_date last_modified now : String) : Timetable :=
  { name := name, semester := semester, sessions := sessions,
    created_date := if created_date = "" then now else created_date,
    last_modified := now }

/-- models.py `Timetable.add_session`: append and refresh `last_modified`. -/
def Timetable.add_session (t : Timetable) (s : ClassSession) (now : String) :
    Timetable :=
  { t with sessions := t.sessions ++ [s], last_modified := now }

/-- Python `list.remove`: delete the first element equal to `s`
(the caller guarantees membership). -/
def removeFirst : List ClassSession → ClassSession → List ClassSession
  | [], _ => []
  | x :: xs, s => if x = s then xs else x :: removeFirst xs s

/-- models.py `Timetable.remove_session`: if the session is present, remove the
first value-equal occurrence and refresh `last_modified`; otherwise do
nothing at all. -/
def Timetable.remove_session (t : Timetable) (s : ClassSession) (now : String) :
    Timetable :=
  if s ∈ t.sessions then
    { t with sessions := removeFirst t.sessions s, last_modified := now }
  else t

/-- models.py `Timetable.get_sessions_by_day`: keep the sessions whose day
matches the argument case-insensitively, in their original order. -/
def Timetable.get_sessions_by_day (t : Timetable) (day : String) :
    List ClassSession :=
  t.sessions.filter (fun s => pyLower s.day == pyLower day)

/-! Dict (JSON object) shapes handled by `to_dict` / `from_dict`.
A field of value `none` models an absent key. -/

/-- Dict shape consumed by `Subject(**d)`: `name` and `code` are required
parameters, the rest have dataclass defaults. -/
structure SubjectDict where
  name : Option String
  code : Option String
  credits : Option Int
  instructor : Option String
  color : Option String
deriving DecidableEq, Repr

/-- Dict shape consumed by `TimeSlot(**d)`: both fields required. -/
structure TimeSlotDict where
  start_time : Option String
  end_time : Option String
deriving DecidableEq, Repr

/-- Dict shape of one entry of the `sessions` list in a timetable dict. -/
structure SessionDict where
  subject : Option SubjectDict
  day : Option String
  time_slot : Option TimeSlotDict
  room : Option String
  session_type : Option String
  notes : Option String
deriving DecidableEq, Repr

/-- Dict shape produced by `Timetable.to_dict` / consumed by `from_dict`. -/
structure TTDict where
  name : Option String
  semester : Option String
  created_date : Option String
  last_modified : Option String
  sessions : Option (List SessionDict)
deriving DecidableEq, Repr

/-- `dataclasses.asdict` on a `Subject`: every field present. -/
def Subject.asdict (s : Subject) : SubjectDict :=
  { name := some s.name, code := some s.code, credits := some s.credits,
    instructor := some s.instructor, color := some s.color }

/-- `dataclasses.asdict` on a `TimeSlot`: both fields present. -/
def TimeSlot.asdict (ts : TimeSlot) : TimeSlotDict :=
  { start_time := some ts.start_time, end_time := some ts.end_time }

/-- The per-session dict built inside `Timetable.to_dict`. -/
def ClassSession.toDictEntry (s : ClassSession) : SessionDict :=
  { subject := some s.subject.asdict, day := some s.day,
    time_slot := some s.time_slot.asdict, room := some s.room,
    session_type := some s.session_type, notes := some s.notes }

/-- models.py `Timetable.to_dict`. -/
def Timetable.to_dict (t : Timetable) : TTDict :=
  { name := some t.name, semester := some t.semester,
    created_date := some t.created_date,
    last_modified := some t.last_modified,
    sessions := some (t.sessions.map ClassSession.toDictEntry) }

/-- `Subject(**d)`: `none` models the `TypeError` on a missing required
keyword; absent optional keys take the dataclass defaults. -/
def subjectFromDict (d : SubjectDict) : Option Subject :=
  match d.name, d.code with
  | some name, some code =>
    some { name := name, code := code, credits := d.credits.getD 3,
           instructor := d.instructor.getD "",
           color := d.color.getD "#3b82f6" }
  | _, _ => none

/-- `TimeSlot(**d)`: both keys required. -/
def timeSlotFromDict (d : TimeSlotDict) : Option TimeSlot :=
  match d.start_time, d.end_time with
  | some st, some en => some { start_time := st, end_time := en }
  | _, _ => none

/-- The per-session reconstruction inside `Timetable.from_dict`:
`subject`, `time_slot` and `day` are accessed with `[]` (KeyError when
absent); `room`, `session_type` and `notes` use `.get` with defaults. -/
def sessionFromDict (d : SessionDict) : Option ClassSession :=
  match d.subject with
  | none => none
  | some sd =>
    match subjectFromDict sd with
    | none => none
    | some subject =>
      match d.time_slot with
      | none => none
      | some td =>
        match timeSlotFromDict td with
        | none => none
        | some time_slot =>
          match d.day with
          | none => none
          | some day =>
            some { subject := subject, day := day, time_slot := time_slot,
                   room := d.room.getD "",
                   session_type := d.session_type.getD "Lecture",
                   notes := d.notes.getD "" }

/-- The `for session_data in data.get('sessions', [])` loop of `from_dict`:
rebuild each session in order, propagating the first exception. -/
def sessionsFromDicts : List SessionDict → Option (List ClassSession)
  | [] => some []
  | d :: rest =>
    match sessionFromDict d with
    | none => none
    | some s =>
      match sessionsFromDicts rest with
      | none => none
      | some tail => some (s :: tail)

/-- models.py `Timetable.from_dict`: rebuild the sessions (any failure is the
propagated exception), access `data['name']` and `data['semester']` (KeyError
when absent), default the timestamps to the empty string, and construct with
the dataclass constructor (so `__post_init__` runs, at time `now`). -/
def Timetable.from_dict (data : TTDict) (now : String) : Option Timetable :=
  match sessionsFromDicts (data.sessions.getD []) with
  | none => none
  | some sessions =>
    match data.name, data.semester with
    | some name, some semester =>
      some (mkTimetable name semester sessions (data.created_date.getD "")
        (data.last_modified.getD "") now)
    | _, _ => none

/-! data_manager.py `DataManager`. The on-disk `timetables.json` array is
modelled as a `List TTDict` (the state read by `load_all_timetables`).
File writes are taken to succeed; an exception raised while scanning the
collection (a stored entry without a `'name'` key) happens before the file is
opened for writing and is modelled as `none` — the caller then returns
`False`/`None` and the stored collection is unchanged. -/

/-- data_manager.py `DataManager.save_timetable`: scan the collection for the
first entry whose `'name'` equals `timetable.name` and replace it (then stop),
or append `timetable.to_dict()` when no entry matches; `none` models the
KeyError raised when an entry scanned before finding a match has no `'name'`
key. -/
def save_timetable (store : List TTDict) (t : Timetable) :
    Option (List TTDict) :=
  match store with
  | [] => some [t.to_dict]
  | d :: rest =>
    match d.name with
    | none => none
    | some n =>
      if n = t.name then some (t.to_dict :: rest)
      else
        match save_timetable rest t with
        | none => none
        | some rest' => some (d :: rest')

/-- data_manager.py `DataManager.load_timetable`: linear scan for the first
entry whose `'name'` equals `name`, returned through `Timetable.from_dict`;
`none` covers the not-found case and every caught exception. -/
def load_timetable (store : List TTDict) (name now : String) :
    Option Timetable :=
  match store with
  | [] => none
  | d :: rest =>
    match d.name with
    | none => none
    | some n =>
      if n = name then Timetable.from_dict d now
      else load_timetable rest name now

/-- data_manager.py `DataManager.delete_timetable`: keep exactly the entries
whose `'name'` differs from `name`; `none` models the KeyError raised by the
list comprehension when an entry has no `'name'` key. -/
def delete_timetable (store : List TTDict) (name : String) :
    Option (List TTDict) :=
  match store with
  | [] => some []
  | d :: rest =>
    match d.name with
    | none => none
    | some n =>
      match delete_timetable rest name with
      | none => none
      | some rest' => some (if n ≠ name then d :: rest' else rest')

/-- data_manager.py settings mapping (the keys of `get_default_settings`). -/
structure Settings where
  theme : String
  appearance_mode : String
  color_theme : String
  window_geometry : String
  auto_save : Bool
  show_weekend : Bool
  time_format : String
  default_session_duration : Int
  reminder_enabled : Bool
  reminder_minutes : Int
deriving DecidableEq, Repr

/-- data_manager.py `DataManager.get_default_settings`. -/
def get_default_settings : Settings :=
  { theme := "dark", appearance_mode := "dark", color_theme := "blue",
    window_geometry := "1200x800", auto_save := true, show_weekend := false,
    time_format := "24h", default_session_duration := 60,
    reminder_enabled := true, reminder_minutes := 15 }

/-- State of on-disk `settings.json` as `load_settings` can encounter it:
absent, present but unreadable (open/parse raises), or readable content. -/
inductive SettingsFile where
  | absent
  | unreadable
  | content (s : Settings)
deriving DecidableEq, Repr

/-- data_manager.py `DataManager.load_settings`: the file's content when it
exists and parses; `get_default_settings()` when the file does not exist, and
likewise when reading it raises (the except branch). -/
def load_settings : SettingsFile → Settings
  | .absent => get_default_settings
  | .unreadable => get_default_settings
  | .content s => s

/-! data_manager.py `DataManager.export_to_csv`, with the `csv` module's
default dialect: fields joined by commas, a field quoted (with inner quotes
doubled) exactly when it contains a comma, quote, CR or LF (QUOTE_MINIMAL). -/

/-- The `fieldnames` header row of `export_to_csv`. -/
def csvHeader : List String :=
  ["Day", "Time", "Subject", "Code", "Room", "Type", "Instructor", "Notes"]

/-- The row written for one session by `export_to_csv`, in `fieldnames`
order; `Time` is `str(session.time_slot)`. -/
def sessionCsvRow (s : ClassSession) : List String :=
  [s.day, s.time_slot.str, s.subject.name, s.subject.code, s.room,
   s.session_type, s.subject.instructor, s.notes]

/-- All rows written by `export_to_csv`: the header, then one row per session
in list order. -/
def export_to_csv_rows (t : Timetable) : List (List String) :=
  csvHeader :: t.sessions.map sessionCsvRow

/-- csv module, QUOTE_MINIMAL: does this field need quoting? -/
def csvNeedsQuote (f : String) : Bool :=
  f.data.any (fun c => c = ',' || c = '"' || c = '\n' || c = '\r')

/-- Double every quote character (the csv module's escaping inside a quoted
field). -/
def csvDoubleQuotes : List Char → List Char
  | [] => []
  | c :: cs =>
    if c = '"' then '"' :: '"' :: csvDoubleQuotes cs
    else c :: csvDoubleQuotes cs

/-- csv module rendering of one field under QUOTE_MINIMAL. -/
def csvField (f : String) : String :=
  if csvNeedsQuote f then "\"" ++ String.mk (csvDoubleQuotes f.data) ++ "\""
  else f

/-- csv module rendering of one row (without the line terminator). -/
def csvLine (row : List String) : String :=
  String.intercalate "," (row.map csvField)

/-- The full text written by `export_to_csv` (each row terminated by the csv
module's default `\r\n`). -/
def export_to_csv_text (t : Timetable) : String :=
  String.join ((export_to_csv_rows t).map (fun row => csvLine row ++ "\r\n"))

/-! Concrete fixtures (the example data of spec §8). -/

/-- The example subject of the spec scenario: `{code:"CS101", name:"Intro CS",
credits:3}` with the dataclass defaults for the other fields. -/
def exSubject : Subject := { name := "Intro CS", code := "CS101" }

/-- The example time slot `{"09:00","10:00"}`. -/
def exSlot : TimeSlot := { start_time := "09:00", end_time := "10:00" }

/-- The example session: Monday 09:00-10:00 in room 101, a Lecture, with
empty instructor and notes. -/
def exSession : ClassSession :=
  { subject := exSubject, day := "Monday", time_slot := exSlot, room := "101" }

/-- A second, distinct session. -/
def exSession2 : ClassSession :=
  { subject := { name := "Algebra", code := "MA201" }, day := "Tuesday",
    time_slot := { start_time := "10:00", end_time := "11:00" },
    room := "202" }

/-- A concrete timetable holding both example sessions, with fixed
timestamps. -/
def exTimetable : Timetable :=
  { name := "Fall", semester := "2024F", sessions := [exSession, exSession2],
    created_date := "2024-01-01T00:00:00",
    last_modified := "2024-01-02T00:00:00" }

/-- A timetable dict carrying no `created_date` / `last_modified` keys. -/
def exDictNoTimestamps : TTDict :=
  { name := some "Fall", semester := some "2024F", created_date := none,
    last_modified := none, sessions := some [] }

/-- A timetable dict carrying no `name` key. -/
def exDictNoName : TTDict :=
  { name := none, semester := some "2024F", created_date := none,
    last_modified := none, sessions := none }

/-- The stored collections reachable from an empty `timetables.json` by
successful `save_timetable` and `delete_timetable` operations. -/
inductive Reachable : List TTDict → Prop
  | empty : Reachable []
  | save (s : List TTDict) (t : Timetable) (s' : List TTDict)
      (hs : Reachable s) (h : save_timetable s t = some s') : Reachable s'
  | del (s : List TTDict) (n : String) (s' : List TTDict)
      (hs : Reachable s) (h : delete_timetable s n = some s') : Reachable s'

end VisualScheduling

namespace VisualScheduling

/-! Helper lemmas. -/

/-- One session survives the dict round trip unchanged. -/
theorem sessionFromDict_toDictEntry (s : ClassSession) :
    sessionFromDict s.toDictEntry = some s := rfl

/-- A serialized session list deserializes to itself. -/
theorem sessionsFromDicts_map_toDictEntry (l : List ClassSession) :
    sessionsFromDicts (l.map ClassSession.toDictEntry) = some l := by
  induction l with
  | nil => rfl
  | cons x xs ih =>
    simp [sessionsFromDicts, sessionFromDict_toDictEntry, ih]

/-- `from_dict (to_dict t)` succeeds and yields the dataclass construction of
the same fields at time `now`. -/
theorem from_dict_to_dict (t : Timetable) (now : String) :
    Timetable.from_dict t.to_dict now =
      some (mkTimetable t.name t.semester t.sessions t.created_date
        t.last_modified now) := by
  simp [Timetable.from_dict, Timetable.to_dict,
    sessionsFromDicts_map_toDictEntry]

/-- C1 counterexample: on a concrete timetable whose `last_modified` is
"2024-01-02T00:00:00", reconstructing `from_dict (to_dict t)` at clock time
"2024-06-01T00:00:00" does not preserve `last_modified` verbatim —
`__post_init__` regenerates it. -/
theorem C1_last_modified_not_preserved :
    ¬ ((Timetable.from_dict exTimetable.to_dict
          "2024-06-01T00:00:00").map Timetable.last_modified =
        some exTimetable.last_modified) := by decide

/-- C1 (amended): for every Timetable `t` with a nonempty `created_date`,
`from_dict (to_dict t)` at clock time `now` yields a Timetable with identical
`name`, `semester` and `sessions`, with `created_date` preserved verbatim,
and with `last_modified` regenerated to `now` (not preserved). -/
theorem C1_round_trip_amended (t : Timetable) (now : String)
    (h : t.created_date ≠ "") :
    Timetable.from_dict t.to_dict now =
      some { name := t.name, semester := t.semester, sessions := t.sessions,
             created_date := t.created_date, last_modified := now } := by
  rw [from_dict_to_dict]
  simp [mkTimetable, h]

/-- Witness for C1: the amended round trip evaluated on the concrete example
timetable. -/
theorem C1_round_trip_witness :
    exTimetable.created_date ≠ "" ∧
    Timetable.from_dict exTimetable.to_dict "2024-06-01T00:00:00" =
      some { name := exTimetable.name, semester := exTimetable.semester,
             sessions := exTimetable.sessions,
             created_date := exTimetable.created_date,
             last_modified := "2024-06-01T00:00:00" } :=
  ⟨by decide,
   C1_round_trip_amended exTimetable "2024-06-01T00:00:00" (by decide)⟩

/-- C5: `get_sessions_by_day` returns exactly the sessions whose day matches
the argument case-insensitively, as a sublist of the session list (preserving
relative order), and two arguments with the same lowercasing give equal
results. -/
theorem C5_sessions_by_day (t : Timetable) (d₁ d₂ : String)
    (h : pyLower d₁ = pyLower d₂) :
    t.get_sessions_by_day d₁ =
      t.sessions.filter (fun s => pyLower s.day == pyLower d₁) ∧
    (t.get_sessions_by_day d₁).Sublist t.sessions ∧
    t.get_sessions_by_day d₁ = t.get_sessions_by_day d₂ := by
  refine ⟨rfl, List.filter_sublist _, ?_⟩
  unfold Timetable.get_sessions_by_day
  rw [h]

/-- Witness for C5: "monday" vs "Monday" on the concrete example timetable. -/
theorem C5_sessions_by_day_witness :
    pyLower "monday" = pyLower "Monday" ∧
    (exTimetable.get_sessions_by_day "monday" =
        exTimetable.sessions.filter
          (fun s => pyLower s.day == pyLower "monday") ∧
      (exTimetable.get_sessions_by_day "monday").Sublist
        exTimetable.sessions ∧
      exTimetable.get_sessions_by_day "monday" =
        exTimetable.get_sessions_by_day "Monday") :=
  ⟨by decide, C5_sessions_by_day exTimetable "monday" "Monday" (by decide)⟩

/-- Python `list.remove` of an element appended to a list it did not occur in
restores the original list. -/
theorem removeFirst_append_singleton (l : List ClassSession)
    (s : ClassSession) (h : s ∉ l) : removeFirst (l ++ [s]) s = l := by
  induction l with
  | nil => simp [removeFirst]
  | cons x xs ih =>
    have hx : x ≠ s := fun hxs => h (hxs ▸ List.mem_cons_self x xs)
    have hxs : s ∉ xs := fun hm => h (List.mem_cons_of_mem x hm)
    simp [removeFirst, hx, ih hxs]

/-- C6 counterexample: on a timetable whose session list is
`[exSession, exSession2]`, adding `exSession` again and then removing a
value-equal session does not restore the list — `remove` deletes the first
value-equal match, leaving `[exSession2, exSession]`. -/
theorem C6_add_remove_not_inverse :
    ((exTimetable.add_session exSession "T1").remove_session exSession
        "T2").sessions ≠ exTimetable.sessions := by decide

/-- C6 (amended): when the added session is not already present (value-equal)
in the list, `add_session` followed by `remove_session` of a value-equal
session restores the session list, and `last_modified` is refreshed to the
clock value on each of the two calls; `remove_session` of a session not
present is a complete no-op (not an error). In general `remove_session`
deletes the first value-equal match, so with duplicates only the multiset of
sessions is restored, not the list. -/
theorem C6_add_remove_amended (t : Timetable) (s : ClassSession)
    (n₁ n₂ : String) (h : s ∉ t.sessions) :
    ((t.add_session s n₁).remove_session s n₂).sessions = t.sessions ∧
    (t.add_session s n₁).last_modified = n₁ ∧
    ((t.add_session s n₁).remove_session s n₂).last_modified = n₂ ∧
    t.remove_session s n₂ = t := by
  have hmem : s ∈ (t.add_session s n₁).sessions := by
    simp [Timetable.add_session]
  refine ⟨?_, rfl, ?_, ?_⟩
  · simp [Timetable.remove_session, hmem, Timetable.add_session,
      removeFirst_append_singleton t.sessions s h]
  · simp [Timetable.remove_session, hmem]
  · simp [Timetable.remove_session, h]

/-- Witness for C6: the amended statement evaluated with a session not in the
concrete example timetable. -/
theorem C6_add_remove_witness :
    exSession ∉ (Timetable.mk "Empty" "2024F" [] "2024-01-01T00:00:00"
        "2024-01-01T00:00:00").sessions ∧
    (((Timetable.mk "Empty" "2024F" [] "2024-01-01T00:00:00"
          "2024-01-01T00:00:00").add_session exSession
        "T1").remove_session exSession "T2").sessions =
      (Timetable.mk "Empty" "2024F" [] "2024-01-01T00:00:00"
        "2024-01-01T00:00:00").sessions ∧
    ((Timetable.mk "Empty" "2024F" [] "2024-01-01T00:00:00"
        "2024-01-01T00:00:00").add_session exSession
      "T1").last_modified = "T1" ∧
    (((Timetable.mk "Empty" "2024F" [] "2024-01-01T00:00:00"
          "2024-01-01T00:00:00").add_session exSession
        "T1").remove_session exSession "T2").last_modified = "T2" ∧
    (Timetable.mk "Empty" "2024F" [] "2024-01-01T00:00:00"
        "2024-01-01T00:00:00").remove_session exSession "T2" =
      Timetable.mk "Empty" "2024F" [] "2024-01-01T00:00:00"
        "2024-01-01T00:00:00" :=
  ⟨by decide,
   C6_add_remove_amended
     (Timetable.mk "Empty" "2024F" [] "2024-01-01T00:00:00"
       "2024-01-01T00:00:00") exSession "T1" "T2" (by decide)⟩

/-- C8: with no settings file (and likewise with an unreadable one),
`load_settings` returns exactly the fixed default mapping of §4.2. -/
theorem C8_default_settings :
    load_settings SettingsFile.absent =
      { theme := "dark", appearance_mode := "dark", color_theme := "blue",
        window_geometry := "1200x800", auto_save := true,
        show_weekend := false, time_format := "24h",
        default_session_duration := 60, reminder_enabled := true,
        reminder_minutes := 15 } ∧
    load_settings SettingsFile.unreadable =
      { theme := "dark", appearance_mode := "dark", color_theme := "blue",
        window_geometry := "1200x800", auto_save := true,
        show_weekend := false, time_format := "24h",
        default_session_duration := 60, reminder_enabled := true,
        reminder_minutes := 15 } :=
  ⟨rfl, rfl⟩

/-- C9: `export_to_csv` writes the header row
`Day,Time,Subject,Code,Room,Type,Instructor,Notes` followed by exactly one
row per session in list order; the `Time` field of a session's row is
`"<start> - <end>"`; an empty field renders as an empty CSV field, as in the
concrete example line
`Monday,09:00 - 10:00,Intro CS,CS101,101,Lecture,,`. -/
theorem C9_export_csv (t : Timetable) :
    export_to_csv_rows t =
      ["Day", "Time", "Subject", "Code", "Room", "Type", "Instructor",
        "Notes"] :: t.sessions.map sessionCsvRow ∧
    (∀ s : ClassSession, sessionCsvRow s =
      [s.day, s.time_slot.start_time ++ " - " ++ s.time_slot.end_time,
       s.subject.name, s.subject.code, s.room, s.session_type,
       s.subject.instructor, s.notes]) ∧
    csvField "" = "" ∧
    csvLine (sessionCsvRow exSession) =
      "Monday,09:00 - 10:00,Intro CS,CS101,101,Lecture,," :=
  ⟨rfl, fun _ => rfl, rfl, by decide⟩

/-- C7 counterexample: on a concrete mapping with no `created_date` /
`last_modified` keys, `from_dict` at clock time "2024-06-01T00:00:00" does
not produce empty-string timestamps — `__post_init__` replaces the defaulted
empty strings with the current timestamp. -/
theorem C7_timestamp_default_not_kept :
    ¬ ((Timetable.from_dict exDictNoTimestamps
          "2024-06-01T00:00:00").map Timetable.created_date = some "") ∧
    ¬ ((Timetable.from_dict exDictNoTimestamps
          "2024-06-01T00:00:00").map Timetable.last_modified = some "") := by
  refine ⟨by decide, by decide⟩

/-- C7 (amended): on load, a missing `room` / `notes` defaults to the empty
string and a missing `session_type` to "Lecture"; a missing `name` or
`semester` key makes `from_dict` fail (fatal load error) rather than yield a
defaulted result; missing timestamps default to the empty string only as
constructor arguments — the constructed Timetable then carries the
construction-time clock value as `created_date`, and as `last_modified`
unconditionally. -/
theorem C7_from_dict_defaults (now : String) :
    (∀ (sd : SessionDict) (cs : ClassSession), sessionFromDict sd = some cs →
        (sd.room = none → cs.room = "") ∧
        (sd.session_type = none → cs.session_type = "Lecture") ∧
        (sd.notes = none → cs.notes = "")) ∧
    (∀ d : TTDict, d.name = none → Timetable.from_dict d now = none) ∧
    (∀ d : TTDict, d.semester = none → Timetable.from_dict d now = none) ∧
    (∀ (d : TTDict) (tt : Timetable), Timetable.from_dict d now = some tt →
        (d.created_date = none → tt.created_date = now) ∧
        tt.last_modified = now) := by
  refine ⟨?_, ?_, ?_, ?_⟩
  · intro sd cs hcs
    unfold sessionFromDict at hcs
    repeat' split at hcs
    all_goals try exact Option.noConfusion hcs
    injection hcs with hcs
    subst hcs
    exact ⟨fun h => by simp [h], fun h => by simp [h], fun h => by simp [h]⟩
  · intro d h
    unfold Timetable.from_dict
    split
    · rfl
    · split <;> simp_all
  · intro d h
    unfold Timetable.from_dict
    split
    · rfl
    · split <;> simp_all
  · intro d tt htt
    unfold Timetable.from_dict at htt
    repeat' split at htt
    all_goals try exact Option.noConfusion htt
    injection htt with htt
    subst htt
    refine ⟨fun h => ?_, ?_⟩
    · simp [mkTimetable, h]
    · simp [mkTimetable]

/-- Witness for C7: `from_dict` on the concrete mapping with no `name` key
fails. -/
theorem C7_from_dict_witness :
    Timetable.from_dict exDictNoName "2024-06-01T00:00:00" = none :=
  (C7_from_dict_defaults "2024-06-01T00:00:00").2.1 exDictNoName rfl

/-- C2: after a successful `save_timetable`, `load_timetable` of the saved
name returns a Timetable whose `name`, `semester` and `sessions` equal those
of the Timetable that was saved. -/
theorem C2_save_then_load (store store' : List TTDict) (t : Timetable)
    (now : String) (hsave : save_timetable store t = some store') :
    ∃ t' : Timetable, load_timetable store' t.name now = some t' ∧
      t'.name = t.name ∧ t'.semester = t.semester ∧
      t'.sessions = t.sessions := by
  induction store generalizing store' with
  | nil =>
    rw [save_timetable] at hsave
    injection hsave with hsave
    subst hsave
    refine ⟨mkTimetable t.name t.semester t.sessions t.created_date
      t.last_modified now, ?_, rfl, rfl, rfl⟩
    simp [load_timetable,
      show TTDict.name t.to_dict = some t.name from rfl, from_dict_to_dict]
  | cons d rest ih =>
    cases hd : d.name with
    | none =>
      simp only [save_timetable, hd] at hsave
      exact Option.noConfusion hsave
    | some n =>
      by_cases hn : n = t.name
      · subst hn
        simp only [save_timetable, hd, if_pos, Option.some.injEq] at hsave
        subst hsave
        refine ⟨mkTimetable t.name t.semester t.sessions t.created_date
          t.last_modified now, ?_, rfl, rfl, rfl⟩
        simp [load_timetable,
          show TTDict.name t.to_dict = some t.name from rfl,
          from_dict_to_dict]
      · simp only [save_timetable, hd] at hsave
        rw [if_neg hn] at hsave
        cases hrest : save_timetable rest t with
        | none => simp [hrest] at hsave
        | some rest' =>
          simp only [hrest, Option.some.injEq] at hsave
          subst hsave
          obtain ⟨t', hload, h₁, h₂, h₃⟩ := ih rest' hrest
          exact ⟨t', by simp [load_timetable, hd, hn, hload], h₁, h₂, h₃⟩

/-- Witness for C2: saving the concrete example timetable into the empty
store and reloading it by name. -/
theorem C2_save_then_load_witness :
    save_timetable [] exTimetable = some [exTimetable.to_dict] ∧
    ∃ t', load_timetable [exTimetable.to_dict] exTimetable.name
        "2024-06-01T00:00:00" = some t' ∧
      t'.name = exTimetable.name ∧ t'.semester = exTimetable.semester ∧
      t'.sessions = exTimetable.sessions :=
  ⟨rfl, C2_save_then_load [] [exTimetable.to_dict] exTimetable
    "2024-06-01T00:00:00" rfl⟩

/-- When no stored entry carries the saved name, `save_timetable` appends the
new entry at the end. -/
theorem save_append_of_not_mem (store : List TTDict) (t : Timetable)
    (hnamed : ∀ d ∈ store, (TTDict.name d).isSome)
    (h : ∀ d ∈ store, ¬ TTDict.name d = some t.name) :
    save_timetable store t = some (store ++ [t.to_dict]) := by
  induction store with
  | nil => rfl
  | cons d rest ih =>
    obtain ⟨n, hn⟩ := Option.isSome_iff_exists.mp
      (hnamed d (List.mem_cons_self d rest))
    have hne : ¬ n = t.name := fun he =>
      h d (List.mem_cons_self d rest) (by rw [hn, he])
    have ihh := ih (fun e he => hnamed e (List.mem_cons_of_mem d he))
      (fun e he => h e (List.mem_cons_of_mem d he))
    simp only [save_timetable, hn]
    rw [if_neg hne, ihh]
    rfl

/-- When the store splits as `s₁ ++ d :: s₂` with `d` the first entry named
`t.name`, `save_timetable` replaces exactly `d` in place. -/
theorem save_replace_first (s₁ : List TTDict) (d : TTDict)
    (s₂ : List TTDict) (t : Timetable) (hd : TTDict.name d = some t.name)
    (hnamed₁ : ∀ e ∈ s₁, (TTDict.name e).isSome)
    (h₁ : ∀ e ∈ s₁, ¬ TTDict.name e = some t.name) :
    save_timetable (s₁ ++ d :: s₂) t = some (s₁ ++ t.to_dict :: s₂) := by
  induction s₁ with
  | nil => simp [save_timetable, hd]
  | cons e s ih =>
    obtain ⟨n, hn⟩ := Option.isSome_iff_exists.mp
      (hnamed₁ e (List.mem_cons_self e s))
    have hne : ¬ n = t.name := fun he =>
      h₁ e (List.mem_cons_self e s) (by rw [hn, he])
    have ihh := ih (fun x hx => hnamed₁ x (List.mem_cons_of_mem e hx))
      (fun x hx => h₁ x (List.mem_cons_of_mem e hx))
    rw [List.cons_append]
    simp only [save_timetable, hn]
    rw [if_neg hne, ihh]
    simp

/-- C3: on a store of named entries, `save_timetable` appends exactly when no
entry carries the saved name, and otherwise replaces the first entry with
that name in place, leaving every other entry unchanged and the collection
length unchanged. -/
theorem C3_save_replaces_or_appends (store : List TTDict) (t : Timetable)
    (hnamed : ∀ d ∈ store, (TTDict.name d).isSome) :
    ((∀ d ∈ store, ¬ TTDict.name d = some t.name) →
      save_timetable store t = some (store ++ [t.to_dict])) ∧
    (∀ (s₁ : List TTDict) (d : TTDict) (s₂ : List TTDict),
      store = s₁ ++ d :: s₂ → TTDict.name d = some t.name →
      (∀ e ∈ s₁, ¬ TTDict.name e = some t.name) →
      save_timetable store t = some (s₁ ++ t.to_dict :: s₂) ∧
      (s₁ ++ t.to_dict :: s₂).length = store.length) := by
  constructor
  · exact fun h => save_append_of_not_mem store t hnamed h
  · intro s₁ d s₂ hstore hd h₁
    subst hstore
    refine ⟨save_replace_first s₁ d s₂ t hd
      (fun e he => hnamed e (List.mem_append_left _ he)) h₁, ?_⟩
    simp

/-- Witness for C3: saving the example timetable over a store already
containing an entry with its name replaces that entry in place. -/
theorem C3_save_witness :
    (∀ d ∈ [exTimetable.to_dict], (TTDict.name d).isSome) ∧
    save_timetable [exTimetable.to_dict] exTimetable =
      some ([] ++ exTimetable.to_dict :: []) ∧
    (([] : List TTDict) ++ exTimetable.to_dict :: []).length =
      [exTimetable.to_dict].length :=
  ⟨by decide,
   (C3_save_replaces_or_appends [exTimetable.to_dict] exTimetable
       (by decide)).2 [] exTimetable.to_dict [] rfl rfl
     (by intro e he; exact absurd he (List.not_mem_nil e))⟩

/-- On a store of named entries, `delete_timetable` succeeds and keeps, in
order, exactly the entries whose name differs from the argument. -/
theorem delete_eq_filter (store : List TTDict) (name : String)
    (hnamed : ∀ d ∈ store, (TTDict.name d).isSome) :
    delete_timetable store name =
      some (store.filter (fun d => !(TTDict.name d == some name))) := by
  induction store with
  | nil => rfl
  | cons d rest ih =>
    obtain ⟨n, hn⟩ := Option.isSome_iff_exists.mp
      (hnamed d (List.mem_cons_self d rest))
    have ihh := ih (fun e he => hnamed e (List.mem_cons_of_mem d he))
    by_cases h : n = name
    · subst h
      rw [delete_timetable, hn, ihh]
      simp [List.filter_cons, hn]
    · rw [delete_timetable, hn, ihh]
      simp [List.filter_cons, hn, h]

/-- C4: on a store of named entries, `delete_timetable` removes every entry
with the given name and keeps all other entries unchanged in order (it is the
name filter), and deleting the same name again returns the same collection
(idempotent). -/
theorem C4_delete_filters (store : List TTDict) (name : String)
    (hnamed : ∀ d ∈ store, (TTDict.name d).isSome) :
    delete_timetable store name =
      some (store.filter (fun d => !(TTDict.name d == some name))) ∧
    delete_timetable
        (store.filter (fun d => !(TTDict.name d == some name))) name =
      some (store.filter (fun d => !(TTDict.name d == some name))) := by
  refine ⟨delete_eq_filter store name hnamed, ?_⟩
  have hnamed' :
      ∀ d ∈ store.filter (fun d => !(TTDict.name d == some name)),
        (TTDict.name d).isSome :=
    fun d hd => hnamed d (List.mem_of_mem_filter hd)
  rw [delete_eq_filter _ name hnamed']
  congr 1
  rw [List.filter_filter]
  simp

/-- Witness for C4: deleting "Fall" from a store holding the example
timetable, twice. -/
theorem C4_delete_witness :
    delete_timetable [exTimetable.to_dict] "Fall" =
      some ([exTimetable.to_dict].filter
        (fun d => !(TTDict.name d == some "Fall"))) ∧
    delete_timetable
        ([exTimetable.to_dict].filter
          (fun d => !(TTDict.name d == some "Fall"))) "Fall" =
      some ([exTimetable.to_dict].filter
        (fun d => !(TTDict.name d == some "Fall"))) :=
  C4_delete_filters [exTimetable.to_dict] "Fall" (by decide)

/-- A successful save leaves every entry of the result named. -/
theorem save_timetable_named (store : List TTDict) (t : Timetable)
    (store' : List TTDict) (hnamed : ∀ d ∈ store, (TTDict.name d).isSome)
    (hsave : save_timetable store t = some store') :
    ∀ d ∈ store', (TTDict.name d).isSome := by
  induction store generalizing store' with
  | nil =>
    rw [save_timetable] at hsave
    injection hsave with hsave
    subst hsave
    intro d hd
    rw [List.mem_singleton.mp hd]
    rfl
  | cons e rest ih =>
    obtain ⟨n, hn⟩ := Option.isSome_iff_exists.mp
      (hnamed e (List.mem_cons_self e rest))
    by_cases h : n = t.name
    · subst h
      simp only [save_timetable, hn, if_pos, Option.some.injEq] at hsave
      subst hsave
      intro d hd
      rcases List.mem_cons.mp hd with hh | hh
      · rw [hh]; rfl
      · exact hnamed d (List.mem_cons_of_mem e hh)
    · simp only [save_timetable, hn] at hsave
      rw [if_neg h] at hsave
      cases hrest : save_timetable rest t with
      | none => simp [hrest] at hsave
      | some rest' =>
        simp only [hrest, Option.some.injEq] at hsave
        subst hsave
        intro d hd
        rcases List.mem_cons.mp hd with hh | hh
        · rw [hh]; exact hnamed e (List.mem_cons_self e rest)
        · exact ih rest' (fun x hx => hnamed x (List.mem_cons_of_mem e hx))
            hrest d hh

/-- Effect of a successful save on the stored name sequence: unchanged when
the name was already stored, extended by the name otherwise. -/
theorem save_timetable_names (store : List TTDict) (t : Timetable)
    (store' : List TTDict) (hnamed : ∀ d ∈ store, (TTDict.name d).isSome)
    (hsave : save_timetable store t = some store') :
    store'.map TTDict.name =
      (if some t.name ∈ store.map TTDict.name then store.map TTDict.name
       else store.map TTDict.name ++ [some t.name]) := by
  induction store generalizing store' with
  | nil =>
    rw [save_timetable] at hsave
    injection hsave with hsave
    subst hsave
    simp [show TTDict.name t.to_dict = some t.name from rfl]
  | cons e rest ih =>
    obtain ⟨n, hn⟩ := Option.isSome_iff_exists.mp
      (hnamed e (List.mem_cons_self e rest))
    by_cases h : n = t.name
    · subst h
      simp only [save_timetable, hn, if_pos, Option.some.injEq] at hsave
      subst hsave
      simp [hn, show TTDict.name t.to_dict = some t.name from rfl]
    · simp only [save_timetable, hn] at hsave
      rw [if_neg h] at hsave
      cases hrest : save_timetable rest t with
      | none => simp [hrest] at hsave
      | some rest' =>
        simp only [hrest, Option.some.injEq] at hsave
        subst hsave
        have ihh := ih rest'
          (fun x hx => hnamed x (List.mem_cons_of_mem e hx)) hrest
        by_cases hm : some t.name ∈ rest.map TTDict.name
        · simp [hn, ihh, hm, Ne.symm h]
        · simp [hn, ihh, hm, Ne.symm h]

/-- A predicate that holds for at most one value has count at most 1 in a
duplicate-free list. -/
theorem countP_le_one_of_nodup {α : Type} (p : α → Bool) (l : List α)
    (hnd : l.Nodup) (hp : ∀ a b, p a = true → p b = true → a = b) :
    l.countP p ≤ 1 := by
  induction l with
  | nil => simp
  | cons a l ih =>
    rw [List.countP_cons]
    by_cases hpa : p a = true
    · have hzero : l.countP p = 0 := by
        rw [List.countP_eq_zero]
        intro b hb hpb
        exact (List.nodup_cons.mp hnd).1 ((hp b a hpb hpa) ▸ hb)
      simp [hzero, hpa]
    · simp only [hpa, if_false]
      exact Nat.le_trans (Nat.le_of_eq (Nat.add_zero _))
        (ih (List.nodup_cons.mp hnd).2)

/-- C10: every store reachable from the empty store by successful saves and
deletes has pairwise-distinct entry names (every entry is named and no name
occurs in more than one entry), so save's replace-first-match and delete's
remove-all-matches act on the same unique entry. -/
theorem C10_unique_names (s : List TTDict) (h : Reachable s) :
    (s.map TTDict.name).Nodup ∧ (∀ d ∈ s, (TTDict.name d).isSome) ∧
    (∀ n : String, s.countP (fun d => TTDict.name d == some n) ≤ 1) := by
  have main : (s.map TTDict.name).Nodup ∧
      ∀ d ∈ s, (TTDict.name d).isSome := by
    induction h with
    | empty => exact ⟨List.nodup_nil, by simp⟩
    | save s t s' hs hsave ih =>
      obtain ⟨hnodup, hnamed⟩ := ih
      refine ⟨?_, save_timetable_named s t s' hnamed hsave⟩
      rw [save_timetable_names s t s' hnamed hsave]
      split_ifs with hm
      · exact hnodup
      · rw [List.nodup_append]
        exact ⟨hnodup, List.nodup_singleton _, fun x hx hx' =>
          hm ((List.mem_singleton.mp hx') ▸ hx)⟩
    | del s n s' hs hdel ih =>
      obtain ⟨hnodup, hnamed⟩ := ih
      have hs' : s' = s.filter (fun d => !(TTDict.name d == some n)) := by
        have hh := delete_eq_filter s n hnamed
        rw [hh] at hdel
        exact (Option.some.inj hdel).symm
      subst hs'
      refine ⟨?_, fun d hd => hnamed d (List.mem_of_mem_filter hd)⟩
      exact List.Nodup.sublist
        (List.Sublist.map TTDict.name (List.filter_sublist s)) hnodup
  refine ⟨main.1, main.2, fun n => ?_⟩
  have h1 := List.countP_map (fun x : Option String => x == some n)
    TTDict.name s
  calc s.countP (fun d => TTDict.name d == some n)
      = (s.map TTDict.name).countP (fun x => x == some n) := h1.symm
    _ ≤ 1 := countP_le_one_of_nodup _ _ main.1 (fun a b ha hb => by
        rw [beq_iff_eq] at ha hb
        rw [ha, hb])

/-- Witness for C10: the store obtained by one successful save into the empty
store has unique names. -/
theorem C10_unique_names_witness :
    ([exTimetable.to_dict].map TTDict.name).Nodup ∧
    (∀ d ∈ [exTimetable.to_dict], (TTDict.name d).isSome) ∧
    (∀ n : String,
      [exTimetable.to_dict].countP
        (fun d => TTDict.name d == some n) ≤ 1) :=
  C10_unique_names [exTimetable.to_dict]
    (Reachable.save [] exTimetable [exTimetable.to_dict] Reachable.empty rfl)

end VisualScheduling
